import Mathlib

/-!
Verification of the RFScopeWaveforms data-access layer.

This file gives a shallow embedding, in Lean, of the parts of the
`rfscopedb` package that the verified properties talk about:

* `QueryFilter` construction and operator validation (`db.py`),
* `WaveformDB.gen_scan_join_statements`, the filter-to-SQL compiler (`db.py`),
* the row-folding ("pivot") step of `WaveformDB.query_scan_rows` (`db.py`),
* the relational semantics of the two metadata read queries (`db.py`),
* `get_datetime_as_utc` (`utils.py`),
* `Scan.add_scan_data`, `Scan.insert_data` and `Scan.analyze_signal`
  (`data_model.py`),
* the `Query` staging state machine (`data_model.py`).

Python dictionaries are embedded as insertion-ordered association lists,
Python floats as rationals, and fallible Python code as `Except PyErr`.
-/

set_option linter.unusedVariables false

namespace RFScope

/-- A Python runtime value that can appear as a scan metadata value or a
filter comparison target: either numeric or textual. -/
inductive Value where
  | num (x : ℚ)
  | str (s : String)
  deriving DecidableEq

/-- `isinstance(v, str)` for an embedded value. -/
def Value.isStr : Value → Bool
  | .str _ => true
  | .num _ => false

/-- The Python exceptions raised by the embedded code. -/
inductive PyErr where
  | valueError (msg : String)
  | typeError (msg : String)
  | runtimeError (msg : String)
  deriving DecidableEq

instance decEqExcept {ε α : Type} [DecidableEq ε] [DecidableEq α] : DecidableEq (Except ε α)
  | .error a, .error b =>
    if h : a = b then isTrue (by rw [h]) else isFalse (by intro hc; injection hc; contradiction)
  | .error _, .ok _ => isFalse (by intro h; cases h)
  | .ok _, .error _ => isFalse (by intro h; cases h)
  | .ok a, .ok b =>
    if h : a = b then isTrue (by rw [h]) else isFalse (by intro hc; injection hc; contradiction)

/-! ## QueryFilter (src/rfscopedb/db.py) -/

/-- `QueryFilter.valid_ops`: the operator whitelist from `db.py`. -/
def valid_ops : List String := [">", "<", "=", "!=", ">=", "<="]

/-- The state of a constructed `QueryFilter` object. -/
structure QueryFilter where
  params : Option (List String)
  ops : Option (List String)
  values : Option (List Value)
  deriving DecidableEq

/-- Python `len(x)` on an optional list: `len(None)` raises `TypeError`. -/
def pyLen {α : Type} : Option (List α) → Except PyErr Nat
  | none => .error (.typeError "object of type NoneType has no len()")
  | some l => .ok l.length

/-- The loop body of `QueryFilter.validate_ops`: walk the operator list and
raise `ValueError` at the first operator outside the whitelist. -/
def validateOpsList : List String → Except PyErr Unit
  | [] => .ok ()
  | op :: rest =>
    if op ∈ valid_ops then validateOpsList rest
    else .error (.valueError ("Invalid operation " ++ op))

/-- `QueryFilter.validate_ops` from `db.py`: a no-op when `ops` is `None`
or empty, otherwise the whitelist check on every operator. -/
def QueryFilter.validate_ops (qf : QueryFilter) : Except PyErr Unit :=
  match qf.ops with
  | none => .ok ()
  | some ops => validateOpsList ops

/-- The tail of `QueryFilter.__init__` after the length checks: the fields
are assigned and `validate_ops` runs on the constructed object. -/
def QueryFilter.finish (fp fo : Option (List String)) (fv : Option (List Value)) :
    Except PyErr QueryFilter :=
  match QueryFilter.validate_ops ⟨fp, fo, fv⟩ with
  | .error e => .error e
  | .ok _ => .ok ⟨fp, fo, fv⟩

/-- `QueryFilter.__init__` from `db.py`.  When any argument is not `None`
the three lengths are compared (evaluating `len` in Python's left-to-right,
short-circuit order), raising `ValueError` on mismatch; then the operator
whitelist is validated. -/
def QueryFilter.init (fp fo : Option (List String)) (fv : Option (List Value)) :
    Except PyErr QueryFilter :=
  if fp.isSome || fo.isSome || fv.isSome then
    match pyLen fp with
    | .error e => .error e
    | .ok lp =>
      match pyLen fv with
      | .error e => .error e
      | .ok lv =>
        if lp ≠ lv then
          .error (.valueError "Filter_params must have same length as filter_ops and filter_values.")
        else
          match pyLen fo with
          | .error e => .error e
          | .ok lo =>
            if lp ≠ lo then
              .error (.valueError "Filter_params must have same length as filter_ops and filter_values.")
            else QueryFilter.finish fp fo fv
  else QueryFilter.finish fp fo fv

/-- `len(QueryFilter)` from `db.py`. -/
def QueryFilter.pyLength (qf : QueryFilter) : Nat :=
  match qf.params with
  | none => 0
  | some ps => ps.length

/-! ## gen_scan_join_statements (src/rfscopedb/db.py) -/

/-- One (metadata_name, comparison, comparison_target) test handed to
`WaveformDB.gen_scan_join_statements`. -/
structure Constraint where
  name : String
  op : String
  value : Value
  deriving DecidableEq

/-- The EAV table a constraint is dispatched to, by the runtime type of its
comparison target: `scan_sdata` for strings, `scan_fdata` otherwise. -/
def constraintTable (v : Value) : String :=
  if v.isStr then "scan_sdata" else "scan_fdata"

/-- The SQL text contributed by the constraint at loop index `idx`:
one inner join of the chosen EAV table, with `%s` placeholders for the
name and the value and the operator token spliced into the text. -/
def joinFragment (idx : Nat) (item : Constraint) : String :=
  " JOIN (SELECT " ++ constraintTable item.value ++ ".sid FROM " ++ constraintTable item.value ++
    " WHERE name = %s and value " ++ item.op ++ " %s) as s" ++ toString idx ++
    " ON scan.sid = s" ++ toString idx ++ ".sid\n"

/-- `WaveformDB.gen_scan_join_statements` from `db.py`: the loop over the
tests accumulates the SQL text and appends each test's name and value to
the bound-parameter list. -/
def gen_scan_join_statements (tests : List Constraint) : String × List Value :=
  let r := tests.foldl
    (fun acc item =>
      (acc.1 ++ joinFragment acc.2.2 item,
       acc.2.1 ++ [Value.str item.name, item.value],
       acc.2.2 + 1))
    ("", [], 0)
  (r.1, r.2.1)

/-- The specification of the compiled SQL text: the fragments of the
constraints in input order, numbered consecutively from `idx`. -/
def fragmentsFrom (idx : Nat) : List Constraint → String
  | [] => ""
  | t :: rest => joinFragment idx t ++ fragmentsFrom (idx + 1) rest

/-! ## Python dictionaries as insertion-ordered association lists -/

/-- Python `d[k] = v` on an insertion-ordered dictionary: overwrite in place
when the key is present, append otherwise. -/
def dictInsert {κ α : Type} [DecidableEq κ] (d : List (κ × α)) (k : κ) (v : α) : List (κ × α) :=
  if d.any (fun p => p.1 = k) then
    d.map (fun p => if p.1 = k then (k, v) else p)
  else d ++ [(k, v)]

/-- Python `k in d`. -/
def dictHas {κ α : Type} [DecidableEq κ] (d : List (κ × α)) (k : κ) : Bool :=
  d.any (fun p => p.1 = k)

/-- Python `d[k]` as an optional read (first matching entry). -/
def dictGet {κ α : Type} [DecidableEq κ] (k : κ) : List (κ × α) → Option α
  | [] => none
  | p :: rest => if p.1 = k then some p.2 else dictGet k rest

/-- Python `d.update(new)`: insert the new entries left to right. -/
def dictUpdate {κ α : Type} [DecidableEq κ] (d new : List (κ × α)) : List (κ × α) :=
  new.foldl (fun acc kv => dictInsert acc kv.1 kv.2) d

/-! ## get_datetime_as_utc (src/rfscopedb/utils.py) -/

/-- A Python `datetime`: a wall-clock reading (a linear count of seconds
including the date part) plus an optional fixed UTC offset in seconds;
`tzinfo = none` is a naive datetime. -/
structure PyDatetime where
  wall : Int
  tzinfo : Option Int
  deriving DecidableEq

/-- The instant a datetime denotes, as seconds since the epoch; a naive
datetime is read in the system local timezone `off`. -/
def PyDatetime.instant (off : Int) (dt : PyDatetime) : Int :=
  match dt.tzinfo with
  | none => dt.wall - off
  | some o => dt.wall - o

/-- Python `dt.astimezone(timezone.utc)` for a system local offset `off`:
a naive datetime is interpreted as local time; the wall clock is adjusted
so that the same instant is expressed at offset zero. -/
def astimezoneUtc (off : Int) (dt : PyDatetime) : PyDatetime :=
  match dt.tzinfo with
  | none => { wall := dt.wall - off, tzinfo := some 0 }
  | some o => { wall := dt.wall - o, tzinfo := some 0 }

/-- Python `dt.replace(tzinfo=timezone.utc)`: re-label the timezone without
touching the wall clock. -/
def replaceTzinfoUtc (dt : PyDatetime) : PyDatetime :=
  { dt with tzinfo := some 0 }

/-- `get_datetime_as_utc` from `utils.py`: `astimezone(timezone.utc)` when
the input is naive, then `replace(tzinfo=timezone.utc)` in every case. -/
def get_datetime_as_utc (off : Int) (dt : PyDatetime) : PyDatetime :=
  let dt := if dt.tzinfo = none then astimezoneUtc off dt else dt
  replaceTzinfoUtc dt

/-! ## Scan (src/rfscopedb/data_model.py) -/

instance decEqQDict : DecidableEq (List (String × ℚ)) := inferInstance

instance decEqQListDict : DecidableEq (List (String × List ℚ)) := inferInstance

instance decEqSigMap : DecidableEq (List (String × List (String × List ℚ))) := inferInstance

instance decEqScalarSigMap : DecidableEq (List (String × List (String × ℚ))) := inferInstance

instance decEqScalarMap : DecidableEq (List (String × List (String × List (String × ℚ)))) :=
  inferInstance

instance decEqArraySigMap : DecidableEq (List (String × List (String × List ℚ))) := inferInstance

instance decEqArrayMap : DecidableEq (List (String × List (String × List (String × List ℚ)))) :=
  inferInstance

/-- The in-memory state of a `Scan` object: waveform samples per cavity and
signal, sampling rates per cavity, analyzer outputs, and the two scan-level
metadata dictionaries. -/
structure Scan where
  dt : PyDatetime
  waveform_data : List (String × List (String × List ℚ))
  sampling_rate : List (String × ℚ)
  analysis_scalar : List (String × List (String × List (String × ℚ)))
  analysis_array : List (String × List (String × List (String × List ℚ)))
  scan_data_float : List (String × ℚ)
  scan_data_str : List (String × String)
  deriving DecidableEq

/-- The overlap loop of `Scan.add_scan_data`: walk the keys of `float_data`
and raise `ValueError` at the first one that is also a key of `str_data`. -/
def overlapCheck : List String → List String → Except PyErr Unit
  | [], _ => .ok ()
  | k :: rest, strKeys =>
    if k ∈ strKeys then
      .error (.valueError ("A metadata name may only appear once in either the float or str data. ('" ++ k ++ "')"))
    else overlapCheck rest strKeys

/-- `Scan.add_scan_data` from `data_model.py`: check the two arguments for
shared keys, then `dict.update` both metadata dictionaries. -/
def Scan.add_scan_data (s : Scan) (float_data : List (String × ℚ))
    (str_data : List (String × String)) : Except PyErr Scan :=
  match overlapCheck (float_data.map Prod.fst) (str_data.map Prod.fst) with
  | .error e => .error e
  | .ok _ =>
    .ok { s with
          scan_data_float := dictUpdate s.scan_data_float float_data,
          scan_data_str := dictUpdate s.scan_data_str str_data }

/-! ## analyze_signal (src/rfscopedb/data_model.py) -/

/-- The argument passed to `Scan.analyze_signal`: a list, tuple or numpy
array of values (modelled together, as `np.array` treats them alike), or an
object of some other type. -/
inductive PyObj where
  | seq (xs : List Value)
  | other (typeName : String)

/-- Whether a value is numeric; `np.array` of a mixed or textual element
list produces a non-numeric dtype, so `np.issubdtype(arr.dtype, np.number)`
holds exactly when every element is numeric. -/
def Value.isNum : Value → Bool
  | .num _ => true
  | .str _ => false

/-- The numeric content of a value (only read on all-numeric arrays). -/
def Value.numVal : Value → ℚ
  | .num x => x
  | .str _ => 0

/-- `np.min` on a nonempty list. -/
def listMin : List ℚ → ℚ
  | [] => 0
  | x :: xs => xs.foldl min x

/-- `np.max` on a nonempty list. -/
def listMax : List ℚ → ℚ
  | [] => 0
  | x :: xs => xs.foldl max x

/-- `np.mean`. -/
def npMean (l : List ℚ) : ℚ := l.sum / l.length

/-- Insert into a sorted list, keeping order. -/
def insertSorted (x : ℚ) : List ℚ → List ℚ
  | [] => [x]
  | y :: ys => if x ≤ y then x :: y :: ys else y :: insertSorted x ys

/-- Sorting, as `np.median` / `np.percentile` sort their input. -/
def npSort (l : List ℚ) : List ℚ := l.foldr insertSorted []

/-- `np.median`: the middle element of the sorted data, or the average of
the two middle elements for an even length. -/
def npMedian (l : List ℚ) : ℚ :=
  let s := npSort l
  let n := l.length
  if n = 0 then 0
  else if n % 2 = 1 then s.getD (n / 2) 0
  else (s.getD (n / 2 - 1) 0 + s.getD (n / 2) 0) / 2

/-- `np.percentile` with the default linear interpolation: the value at
fractional position `(n - 1) * q / 100` of the sorted data. -/
def npPercentile (l : List ℚ) (q : ℚ) : ℚ :=
  let s := npSort l
  let n := l.length
  if n = 0 then 0
  else
    let pos : ℚ := ((n : ℚ) - 1) * q / 100
    let i : ℕ := (Int.toNat ⌊pos⌋)
    let frac : ℚ := pos - (i : ℚ)
    if i + 1 < n then s.getD i 0 + frac * (s.getD (i + 1) 0 - s.getD i 0)
    else s.getD i 0

/-- Modelled from the spec: `scipy.signal.periodogram` is external to this
repository.  For a real input of length `n` at sampling rate `fs` its
one-sided frequency axis is `i * fs / n` for `i` in `0 .. n / 2`
(spec section 4.4; the unit test checks the same formula against
`[i * 5000.0 / 8192.0 for i in range(4097)]`).  The power estimate is kept
abstract as a parameter of `analyze_signal`. -/
def periodogramFreqs (n : Nat) (fs : ℚ) : List ℚ :=
  (List.range (n / 2 + 1)).map (fun (i : ℕ) => (i : ℚ) * fs / (n : ℚ))

/-- Modelled from the spec: `np.argmax` is external to this repository; it
returns the index of the first occurrence of the maximum value. -/
def npArgmax : List ℚ → Nat
  | [] => 0
  | [_] => 0
  | x :: y :: xs =>
    let j := npArgmax (y :: xs)
    if (y :: xs).getD j 0 > x then j + 1 else 0

/-- `Scan.analyze_signal` from `data_model.py`.  The two operations with
irrational or transform-based results, `np.sqrt` and the periodogram power
estimate, are abstracted as the parameters `npSqrt` and `pxx`; everything
else follows the source: the `isinstance` check, the numeric-dtype check,
the length check, the statistics, and the dominant frequency as the
frequency-axis entry at the argmax of the power estimate. -/
def analyze_signal (npSqrt : ℚ → ℚ) (pxx : List ℚ → ℚ → List ℚ)
    (arr : PyObj) (sampling_rate : ℚ) :
    Except PyErr (List (String × ℚ) × List (String × List ℚ)) :=
  match arr with
  | .other typeName =>
    .error (.typeError ("Input must be a list, numpy array, or tuple. Not " ++ typeName))
  | .seq xs =>
    if xs.all Value.isNum = false then
      .error (.valueError "Input array must contain only numerical values.")
    else if xs.length ≠ 8192 then
      .error (.valueError ("Input array must have exactly 8192 elements. Got " ++
        toString xs.length ++ " elements."))
    else
      let a := xs.map Value.numVal
      let min_val := listMin a
      let max_val := listMax a
      let peak_to_peak := max_val - min_val
      let mean := npMean a
      let median := npMedian a
      let std_dev := npSqrt (npMean (a.map (fun x => (x - mean) ^ 2)))
      let rms := npSqrt (npMean (a.map (fun x => x ^ 2)))
      let q25 := npPercentile a 25
      let q75 := npPercentile a 75
      let f := periodogramFreqs xs.length sampling_rate
      let Pxx_den := pxx a sampling_rate
      let dominant_freq := f.getD (npArgmax Pxx_den) 0
      .ok ([("minimum", min_val), ("maximum", max_val), ("peak_to_peak", peak_to_peak),
            ("mean", mean), ("median", median), ("standard_deviation", std_dev),
            ("rms", rms), ("25th_quartile", q25), ("75th_quartile", q75),
            ("dominant_frequency", dominant_freq)],
           [("power_spectrum", Pxx_den), ("frequencies", f)])

/-! ## Row folding in query_scan_rows (src/rfscopedb/db.py) -/

/-- One long-format row returned by the two metadata read queries of
`query_scan_rows`: a textual EAV row (from `scan_sdata`) or a numeric EAV
row (from `scan_fdata`), each carrying the owning scan id and its start
timestamp from the joined `scan` subquery. -/
inductive MetaRow where
  | srow (sid : Nat) (start : Int) (name : String) (value : String)
  | frow (sid : Nat) (start : Int) (name : String) (value : ℚ)
  deriving DecidableEq

def MetaRow.sid : MetaRow → Nat
  | .srow sid _ _ _ => sid
  | .frow sid _ _ _ => sid

def MetaRow.start : MetaRow → Int
  | .srow _ t _ _ => t
  | .frow _ t _ _ => t

/-- The type-prefixed field key the fold writes for a row: `s_` + name for
textual rows, `f_` + name for numeric rows. -/
def MetaRow.key : MetaRow → String
  | .srow _ _ name _ => "s_" ++ name
  | .frow _ _ name _ => "f_" ++ name

/-- A folded record field value: the scan id, the start timestamp, or a
metadata value of either type. -/
inductive FieldVal where
  | nat (n : Nat)
  | time (t : Int)
  | num (x : ℚ)
  | str (s : String)
  deriving DecidableEq

/-- The metadata value a row contributes to its folded record. -/
def MetaRow.val : MetaRow → FieldVal
  | .srow _ _ _ v => .str v
  | .frow _ _ _ v => .num v

/-- The loop body of the row-per-metadata to row-per-scan conversion in
`query_scan_rows`: fetch (or create) the record for the row's scan id, then
write its `sid`, `scan_start_utc` and type-prefixed metadata field. -/
def applyRow (acc : List (Nat × List (String × FieldVal))) (row : MetaRow) :
    List (Nat × List (String × FieldVal)) :=
  let d0 := (dictGet row.sid acc).getD []
  let d1 := dictInsert d0 "sid" (.nat row.sid)
  let d2 := dictInsert d1 "scan_start_utc" (.time row.start)
  let d3 := dictInsert d2 row.key row.val
  dictInsert acc row.sid d3

/-- The row-folding ("pivot") step of `query_scan_rows`: fold every
long-format row into the per-scan dictionary and return the records in
dictionary order (`list(scan_meta.values())`). -/
def foldScanRows (rows : List MetaRow) : List (List (String × FieldVal)) :=
  (rows.foldl applyRow []).map Prod.snd

/-- The owner ids already seen, then the first occurrences of the remaining
list in order: the specification of first-seen-order key sets. -/
def firstSeenFrom (seen : List Nat) : List Nat → List Nat
  | [] => []
  | x :: xs => if x ∈ seen then firstSeenFrom seen xs else x :: firstSeenFrom (x :: seen) xs

/-- The folded metadata field `k` of the record for scan `sid`. -/
def recLookup (rows : List MetaRow) (sid : Nat) (k : String) : Option FieldVal :=
  (dictGet sid (rows.foldl applyRow [])).bind (fun d => dictGet k d)

/-- The value of the last row for owner `sid` and folded key `k`:
the specification of last-write-wins. -/
def lastValue (rows : List MetaRow) (sid : Nat) (k : String) : Option FieldVal :=
  rows.foldl (fun o r => if r.sid = sid ∧ r.key = k then some r.val else o) none

/-! ## The scan metadata read queries (src/rfscopedb/db.py) -/

/-- The three tables the scan metadata read path touches, as lists of rows:
`scan(sid, scan_start_utc)`, `scan_sdata(sid, name, value)` and
`scan_fdata(sid, name, value)`. -/
structure StoreDB where
  scan : List (Nat × Int)
  scan_sdata : List (Nat × String × String)
  scan_fdata : List (Nat × String × ℚ)

/-- The `SELECT scan.* FROM scan <filters>` subquery of `query_scan_rows`:
the scans retained by the compiled join/where filters, whose combined
effect is abstracted as the predicate `pred`. -/
def scanSubquery (db : StoreDB) (pred : Nat × Int → Bool) : List (Nat × Int) :=
  db.scan.filter pred

/-- Modelled from the spec: the relational engine is external.  The inner
join `FROM scan_sdata JOIN (sub) AS t1 ON t1.sid = scan_sdata.sid` of
`query_scan_rows` pairs every textual EAV row with every retained scan of
the same id. -/
def sdataJoin (db : StoreDB) (pred : Nat × Int → Bool) : List MetaRow :=
  db.scan_sdata.flatMap (fun r =>
    ((scanSubquery db pred).filter (fun t => t.1 = r.1)).map
      (fun t => MetaRow.srow r.1 t.2 r.2.1 r.2.2))

/-- Modelled from the spec: the inner join of `scan_fdata` with the
retained scans, as in `sdataJoin`. -/
def fdataJoin (db : StoreDB) (pred : Nat × Int → Bool) : List MetaRow :=
  db.scan_fdata.flatMap (fun r =>
    ((scanSubquery db pred).filter (fun t => t.1 = r.1)).map
      (fun t => MetaRow.frow r.1 t.2 r.2.1 r.2.2))

/-- `query_scan_rows` from `db.py`: execute the textual query, then the
numeric query, append all rows in that order, and fold them into one record
per scan. -/
def query_scan_rows (db : StoreDB) (pred : Nat × Int → Bool) :
    List (List (String × FieldVal)) :=
  foldScanRows (sdataJoin db pred ++ fdataJoin db pred)

/-! ## Scan.insert_data (src/rfscopedb/data_model.py) -/

/-- The SQL statements `insert_data` executes inside its transaction, with
their payloads.  (The `SELECT LAST_INSERT_ID()` reads chain the generated
ids into later payloads; they affect the inserted values, not the
transactional control flow.) -/
inductive Stmt where
  | insertScan (scan_start_utc : PyDatetime)
  | insertWaveform (cavity signal : String) (sample_rate : ℚ)
  | insertWaveformAdata (rows : List (String × List ℚ))
  | insertWaveformSdata (rows : List (String × ℚ))
  | insertScanFdata (rows : List (String × ℚ))
  | insertScanSdata (rows : List (String × String))
  deriving DecidableEq

/-- The `waveform_adata` batch for one waveform: the `raw` samples followed
by one row per analyzer-produced array. -/
def Scan.adataRows (s : Scan) (cav signal : String) (raw : List ℚ) :
    List (String × List ℚ) :=
  ("raw", raw) :: (dictGet signal ((dictGet cav s.analysis_array).getD [])).getD []

/-- The `waveform_sdata` batch for one waveform: one row per
analyzer-produced scalar metric. -/
def Scan.sdataRows (s : Scan) (cav signal : String) : List (String × ℚ) :=
  (dictGet signal ((dictGet cav s.analysis_scalar).getD [])).getD []

/-- The ordered statement list of `insert_data`: the scan row; for every
cavity and every signal other than `Time`, the waveform row, its array
batch and its scalar batch; then the scan-level numeric and textual
metadata batches, each skipped when empty. -/
def insert_steps (off : Int) (s : Scan) : List Stmt :=
  [Stmt.insertScan (get_datetime_as_utc off s.dt)]
  ++ s.waveform_data.flatMap (fun cd =>
       (cd.2.filter (fun p => p.1 ≠ "Time")).flatMap (fun sigd =>
         [Stmt.insertWaveform cd.1 sigd.1 ((dictGet cd.1 s.sampling_rate).getD 0),
          Stmt.insertWaveformAdata (s.adataRows cd.1 sigd.1 sigd.2),
          Stmt.insertWaveformSdata (s.sdataRows cd.1 sigd.1)]))
  ++ (if s.scan_data_float.length > 0 then [Stmt.insertScanFdata s.scan_data_float] else [])
  ++ (if s.scan_data_str.length > 0 then [Stmt.insertScanSdata s.scan_data_str] else [])

/-- A database connection with `autocommit` off: rows already committed
(visible to concurrent readers) and rows executed inside the open
transaction but not yet committed. -/
structure MConn where
  committed : List Stmt
  pending : List Stmt
  deriving DecidableEq

/-- `conn.commit()`: the pending statements become visible. -/
def MConn.commit (c : MConn) : MConn := ⟨c.committed ++ c.pending, []⟩

/-- `conn.rollback()`: the pending statements are discarded. -/
def MConn.rollback (c : MConn) : MConn := ⟨c.committed, []⟩

/-- Run the statements of the transaction body in order.  The engine's
behavior is abstracted by the oracle `fail`: statement `i` either raises
the error `fail i` (malformed data, constraint violation, connection
failure, ...) or executes, adding its rows to the open transaction. -/
def runStmts (fail : Nat → Option PyErr) : Nat → List Stmt → MConn → Except PyErr MConn
  | _, [], c => .ok c
  | i, st :: rest, c =>
    match fail i with
    | some e => .error e
    | none => runStmts fail (i + 1) rest ⟨c.committed, c.pending ++ [st]⟩

/-- `Scan.insert_data` from `data_model.py`: execute every statement inside
one transaction and commit; on any raised error, roll the transaction back
and re-raise the same error. -/
def Scan.insert_data (fail : Nat → Option PyErr) (off : Int) (s : Scan) (conn : MConn) :
    Except PyErr Unit × MConn :=
  match runStmts fail 0 (insert_steps off s) conn with
  | .ok c => (.ok (), c.commit)
  | .error e => (.error e, conn.rollback)

/-! ## The Query staging state machine (src/rfscopedb/data_model.py) -/

/-- The keyword parameters `WaveformDB.query_scan_rows` accepts
(`db.py`, its `def` line). -/
def query_scan_rows_argnames : List String := ["begin", "end", "q_filter"]

/-- The keyword arguments `Query.stage` passes to `query_scan_rows`
(`data_model.py`). -/
def stage_call_kwargs : List String := ["begin", "end", "filter_params", "filter_ops", "filter_values"]

/-- Whether a Python keyword-argument call binds: every keyword must name a
declared parameter, otherwise the call raises `TypeError`. -/
def pyKwargsAccepted (argnames kwargs : List String) : Bool :=
  kwargs.all (fun k => decide (k ∈ argnames))

/-- The staging state of a `Query` object. -/
structure QueryState where
  staged : Bool
  scan_meta : Option (List (List (String × FieldVal)))
  deriving DecidableEq

/-- `Query.stage` from `data_model.py`: the call
`self.db.query_scan_rows(begin=..., end=..., filter_params=...,
filter_ops=..., filter_values=...)` must bind against the parameters of
`query_scan_rows` before any query runs; when it binds, the scan rows
(abstracted as `fetchScans`) are stored and the query becomes staged. -/
def Query.stage (fetchScans : Unit → List (List (String × FieldVal))) (q : QueryState) :
    Except PyErr QueryState :=
  if pyKwargsAccepted query_scan_rows_argnames stage_call_kwargs then
    .ok { q with scan_meta := some (fetchScans ()), staged := true }
  else
    .error (.typeError
      "query_scan_rows() got an unexpected keyword argument 'filter_params'")

/-- `Query.run` from `data_model.py`: raise `RuntimeError` when the query
is not staged; otherwise fetch the waveform data and metadata (abstracted
as the two `fetch` parameters). -/
def Query.run (fetchData fetchMeta : Unit → List (List (String × FieldVal)))
    (q : QueryState) : Except PyErr (List (List (String × FieldVal)) × List (List (String × FieldVal))) :=
  if q.staged = false then .error (.runtimeError "Query not staged.")
  else .ok (fetchData (), fetchMeta ())

/-! ## Theorems -/

theorem validateOpsList_err (ops : List String) (h : ∃ op ∈ ops, op ∉ valid_ops) :
    ∃ op, op ∉ valid_ops ∧
      validateOpsList ops = .error (.valueError ("Invalid operation " ++ op)) := by
  induction ops with
  | nil => simp at h
  | cons a rest ih =>
    by_cases ha : a ∈ valid_ops
    · obtain ⟨op, hop, hnot⟩ := h
      rcases List.mem_cons.mp hop with rfl | hmem
      · exact absurd ha hnot
      · obtain ⟨op2, h1, h2⟩ := ih ⟨op, hmem, hnot⟩
        exact ⟨op2, h1, by simpa [validateOpsList, ha] using h2⟩
    · exact ⟨a, ha, by simp [validateOpsList, ha]⟩

/-- C3: for every equal-length constraint list containing at least one
operator outside the whitelist, `QueryFilter.__init__` raises the
invalid-operator `ValueError` during construction — before any SQL text is
built (`gen_scan_join_statements` is only ever applied to a constructed
`QueryFilter`) and before any query is issued. -/
theorem queryFilter_init_invalid_op (ps ops : List String) (vs : List Value)
    (h1 : ps.length = vs.length) (h2 : ps.length = ops.length)
    (hbad : ∃ op ∈ ops, op ∉ valid_ops) :
    ∃ op, op ∉ valid_ops ∧
      QueryFilter.init (some ps) (some ops) (some vs) =
        .error (.valueError ("Invalid operation " ++ op)) := by
  obtain ⟨op, hop, heq⟩ := validateOpsList_err ops hbad
  refine ⟨op, hop, ?_⟩
  have h3 : vs.length = ops.length := h1.symm.trans h2
  simp [QueryFilter.init, pyLen, h1, h2, h3, QueryFilter.finish, QueryFilter.validate_ops, heq]

/-- Witness for C3 at the concrete invalid operator of the unit test. -/
theorem queryFilter_init_invalid_op_witness :
    ∃ op, op ∉ valid_ops ∧
      QueryFilter.init (some ["c"]) (some ["asdf"]) (some [Value.num 73]) =
        .error (.valueError ("Invalid operation " ++ op)) :=
  queryFilter_init_invalid_op ["c"] ["asdf"] [Value.num 73] (by decide) (by decide)
    ⟨"asdf", by decide, by decide⟩

/-- C4: `get_datetime_as_utc` does not perform a correct conversion for
every input timezone: an aware non-UTC datetime (wall clock 12:00:00 at
offset +05:00, i.e. instant 07:00:00 UTC) is re-labelled as UTC with its
wall clock unchanged, so the result denotes a different instant (12:00:00
UTC).  This contradicts the function's own documentation ("Convert a
datetime to UTC timezone"). -/
theorem get_datetime_as_utc_wrong_instant :
    (get_datetime_as_utc 0 ⟨43200, some 18000⟩).tzinfo = some 0 ∧
    get_datetime_as_utc 0 ⟨43200, some 18000⟩ = ⟨43200, some 0⟩ ∧
    PyDatetime.instant 0 (get_datetime_as_utc 0 ⟨43200, some 18000⟩) ≠
      PyDatetime.instant 0 ⟨43200, some 18000⟩ := by decide

/-- C5 counterexample: two successive `add_scan_data` calls place the same
name `a` in both the numeric and the textual scan metadata dictionaries and
neither call raises — the overlap check only compares the two arguments of
one call, never the accumulated state. -/
theorem add_scan_data_cross_call_overlap :
    (Scan.add_scan_data ⟨⟨0, none⟩, [], [], [], [], [], []⟩ [("a", 1)] []).bind
      (fun s1 => Scan.add_scan_data s1 [] [("a", "x")]) =
    .ok ⟨⟨0, none⟩, [], [], [], [], [("a", 1)], [("a", "x")]⟩ := by decide

theorem overlapCheck_err_iff (ks strKeys : List String) :
    (∃ k ∈ ks, k ∈ strKeys) ↔
      ∃ msg, overlapCheck ks strKeys = .error (.valueError msg) := by
  induction ks with
  | nil => simp [overlapCheck]
  | cons a rest ih =>
    by_cases ha : a ∈ strKeys
    · simp only [overlapCheck, if_pos ha]
      constructor
      · exact fun _ => ⟨_, rfl⟩
      · exact fun _ => ⟨a, List.mem_cons_self a rest, ha⟩
    · simp only [overlapCheck, if_neg ha]
      constructor
      · rintro ⟨k, hk, hk2⟩
        rcases List.mem_cons.mp hk with rfl | hmem
        · exact absurd hk2 ha
        · exact ih.mp ⟨k, hmem, hk2⟩
      · rintro ⟨msg, hmsg⟩
        obtain ⟨k, hk, hk2⟩ := ih.mpr ⟨msg, hmsg⟩
        exact ⟨k, List.mem_cons_of_mem a hk, hk2⟩

/-- C5 amended: the overlap invariant holds only within one
`add_scan_data` call — the call raises the ambiguous-naming `ValueError`
exactly when its own `float_data` and `str_data` arguments share a key;
overlap with metadata from earlier calls is not checked. -/
theorem add_scan_data_same_call_overlap (s : Scan) (fd : List (String × ℚ))
    (sd : List (String × String)) :
    (∃ k, k ∈ fd.map Prod.fst ∧ k ∈ sd.map Prod.fst) ↔
      ∃ msg, Scan.add_scan_data s fd sd = .error (.valueError msg) := by
  have h := overlapCheck_err_iff (fd.map Prod.fst) (sd.map Prod.fst)
  constructor
  · intro hx
    obtain ⟨msg, hmsg⟩ := h.mp (by simpa using hx)
    exact ⟨msg, by simp [Scan.add_scan_data, hmsg]⟩
  · rintro ⟨msg, hmsg⟩
    simp only [Scan.add_scan_data] at hmsg
    rcases hoc : overlapCheck (fd.map Prod.fst) (sd.map Prod.fst) with e | u
    · rw [hoc] at hmsg
      simp at hmsg
      obtain ⟨k, hk, hk2⟩ := h.mpr ⟨msg, by rw [hoc, hmsg]⟩
      exact ⟨k, hk, hk2⟩
    · rw [hoc] at hmsg
      simp at hmsg

/-- C6: the staging state machine is broken in the code.  `run()` on an
unstaged query does raise the not-staged `RuntimeError` before any fetch
(the conclusion does not depend on the fetch oracles), but `stage()` can
never succeed: it passes the keyword arguments `filter_params`,
`filter_ops` and `filter_values`, which `WaveformDB.query_scan_rows`
(whose parameters are `begin`, `end`, `q_filter`) does not accept, so the
call raises `TypeError` instead of resolving the candidate scans. -/
theorem query_stage_run_mismatch
    (fetchScans : Unit → List (List (String × FieldVal)))
    (fetchData fetchMeta : Unit → List (List (String × FieldVal)))
    (q : QueryState) :
    (q.staged = false →
      Query.run fetchData fetchMeta q = .error (.runtimeError "Query not staged.")) ∧
    Query.stage fetchScans q = .error (.typeError
      "query_scan_rows() got an unexpected keyword argument 'filter_params'") := by
  constructor
  · intro h
    simp [Query.run, h]
  · have hacc : pyKwargsAccepted query_scan_rows_argnames stage_call_kwargs = false := by decide
    simp [Query.stage, hacc]

/-- Witness for C6 on a freshly constructed (unstaged) query. -/
theorem query_stage_run_mismatch_witness :
    Query.run (fun _ => []) (fun _ => []) ⟨false, none⟩ =
      .error (.runtimeError "Query not staged.") ∧
    Query.stage (fun _ => []) ⟨false, none⟩ = .error (.typeError
      "query_scan_rows() got an unexpected keyword argument 'filter_params'") :=
  ⟨(query_stage_run_mismatch (fun _ => []) (fun _ => []) (fun _ => []) ⟨false, none⟩).1 rfl,
   (query_stage_run_mismatch (fun _ => []) (fun _ => []) (fun _ => []) ⟨false, none⟩).2⟩

/-- C7 counterexample: on a length-2 input of non-numeric elements (a
length other than 8192), `analyze_signal` raises the non-numeric
`ValueError`, not the length error the claim requires — the numeric-dtype
check runs before the length check. -/
theorem analyze_signal_short_nonnumeric :
    analyze_signal id (fun _ _ => []) (PyObj.seq [Value.str "a", Value.str "b"]) 5000 =
      .error (.valueError "Input array must contain only numerical values.") ∧
    analyze_signal id (fun _ _ => []) (PyObj.seq [Value.str "a", Value.str "b"]) 5000 ≠
      .error (.valueError "Input array must have exactly 8192 elements. Got 2 elements.") := by
  decide

/-- C7 amended: any sequence containing a non-numeric element fails with
the non-numeric `ValueError` whatever its length; an all-numeric sequence
whose length is not 8192 fails with the length `ValueError`; both checks
run before any statistical or spectral computation (the conclusions do not
depend on the `npSqrt` and `pxx` oracles). -/
theorem analyze_signal_validation_order (npSqrt : ℚ → ℚ)
    (pxx : List ℚ → ℚ → List ℚ) (xs : List Value) (fs : ℚ) :
    (xs.all Value.isNum = false →
      analyze_signal npSqrt pxx (PyObj.seq xs) fs =
        .error (.valueError "Input array must contain only numerical values.")) ∧
    (xs.all Value.isNum = true → xs.length ≠ 8192 →
      analyze_signal npSqrt pxx (PyObj.seq xs) fs =
        .error (.valueError ("Input array must have exactly 8192 elements. Got " ++
          toString xs.length ++ " elements."))) := by
  constructor
  · intro h
    simp [analyze_signal, h]
  · intro h hl
    simp [analyze_signal, h, hl]

/-- Witness for C7 amended, at a non-numeric input and a short numeric
input. -/
theorem analyze_signal_validation_order_witness :
    analyze_signal id (fun _ _ => []) (PyObj.seq [Value.str "a"]) 5000 =
      .error (.valueError "Input array must contain only numerical values.") ∧
    analyze_signal id (fun _ _ => []) (PyObj.seq [Value.num 1, Value.num 2]) 5000 =
      .error (.valueError ("Input array must have exactly 8192 elements. Got " ++
        toString (List.length [Value.num 1, Value.num 2]) ++ " elements.")) :=
  ⟨(analyze_signal_validation_order id (fun _ _ => []) [Value.str "a"] 5000).1 (by decide),
   (analyze_signal_validation_order id (fun _ _ => []) [Value.num 1, Value.num 2] 5000).2
     (by decide) (by decide)⟩

theorem gen_scan_join_go (tests : List Constraint) :
    ∀ (sql0 : String) (data0 : List Value) (idx0 : Nat),
      tests.foldl
        (fun acc item =>
          (acc.1 ++ joinFragment acc.2.2 item,
           acc.2.1 ++ [Value.str item.name, item.value],
           acc.2.2 + 1))
        (sql0, data0, idx0) =
      (sql0 ++ fragmentsFrom idx0 tests,
       data0 ++ tests.flatMap (fun t => [Value.str t.name, t.value]),
       idx0 + tests.length) := by
  induction tests with
  | nil =>
    intro sql0 data0 idx0
    simp [fragmentsFrom]
  | cons t rest ih =>
    intro sql0 data0 idx0
    simp only [List.foldl_cons]
    rw [ih]
    simp only [fragmentsFrom, List.flatMap_cons, List.length_cons, Prod.mk.injEq]
    refine ⟨?_, ?_, ?_⟩
    · rw [String.append_assoc]
    · simp
    · omega

theorem joinFragment_shape_eq (idx : Nat) (a b : Constraint)
    (hop : a.op = b.op) (hstr : a.value.isStr = b.value.isStr) :
    joinFragment idx a = joinFragment idx b := by
  simp only [joinFragment, constraintTable, hop, hstr]

theorem fragmentsFrom_shape_eq (tests tests2 : List Constraint)
    (hshape : List.Forall₂ (fun a b => a.op = b.op ∧ a.value.isStr = b.value.isStr) tests tests2) :
    ∀ idx, fragmentsFrom idx tests = fragmentsFrom idx tests2 := by
  induction hshape with
  | nil => intro idx; rfl
  | cons h _ ih =>
    intro idx
    simp only [fragmentsFrom]
    rw [joinFragment_shape_eq idx _ _ h.1 h.2, ih (idx + 1)]

/-- C2: for every constraint list with whitelisted operators the compiler
emits the join fragments of the constraints in input order (one inner join
each, dispatched to `scan_sdata` for string values and `scan_fdata` for
numeric values), the bound-parameter list is exactly the names and values
in order, two per constraint, and the produced SQL text is identical for
any other constraint list of the same operators and value types — so names
and values never reach the SQL text, only the operator token is spliced. -/
theorem gen_scan_join_statements_correct (tests tests2 : List Constraint)
    (hops : ∀ t ∈ tests, t.op ∈ valid_ops)
    (hshape : List.Forall₂ (fun a b => a.op = b.op ∧ a.value.isStr = b.value.isStr) tests tests2) :
    (gen_scan_join_statements tests).1 = fragmentsFrom 0 tests ∧
    (gen_scan_join_statements tests).2 =
      tests.flatMap (fun t => [Value.str t.name, t.value]) ∧
    (∀ idx, ∀ t : Constraint, ∃ rest,
      joinFragment idx t =
        " JOIN (SELECT " ++ (if t.value.isStr then "scan_sdata" else "scan_fdata") ++ rest) ∧
    (gen_scan_join_statements tests).1 = (gen_scan_join_statements tests2).1 := by
  have hgo := gen_scan_join_go
  refine ⟨?_, ?_, ?_, ?_⟩
  · simp [gen_scan_join_statements, hgo tests "" [] 0]
  · simp [gen_scan_join_statements, hgo tests "" [] 0]
  · intro idx t
    refine ⟨".sid FROM " ++ constraintTable t.value ++ " WHERE name = %s and value " ++ t.op ++
      " %s) as s" ++ toString idx ++ " ON scan.sid = s" ++ toString idx ++ ".sid\n", ?_⟩
    simp only [joinFragment, constraintTable, String.append_assoc]
  · simp only [gen_scan_join_statements, hgo tests "" [] 0, hgo tests2 "" [] 0]
    simp [fragmentsFrom_shape_eq tests tests2 hshape 0]

/-- Witness for C2 at a two-constraint list (one numeric, one textual) and
a second list with the same operators and value types but different names
and values. -/
theorem gen_scan_join_statements_correct_witness :
    (∀ t ∈ [Constraint.mk "R1XXITOT" ">=" (Value.num 10), Constraint.mk "c" "=" (Value.str "on")],
      t.op ∈ valid_ops) ∧
    ((gen_scan_join_statements
        [Constraint.mk "R1XXITOT" ">=" (Value.num 10), Constraint.mk "c" "=" (Value.str "on")]).1 =
      fragmentsFrom 0
        [Constraint.mk "R1XXITOT" ">=" (Value.num 10), Constraint.mk "c" "=" (Value.str "on")] ∧
    (gen_scan_join_statements
        [Constraint.mk "R1XXITOT" ">=" (Value.num 10), Constraint.mk "c" "=" (Value.str "on")]).2 =
      [Constraint.mk "R1XXITOT" ">=" (Value.num 10),
       Constraint.mk "c" "=" (Value.str "on")].flatMap
        (fun t => [Value.str t.name, t.value]) ∧
    (∀ idx, ∀ t : Constraint, ∃ rest,
      joinFragment idx t =
        " JOIN (SELECT " ++ (if t.value.isStr then "scan_sdata" else "scan_fdata") ++ rest) ∧
    (gen_scan_join_statements
        [Constraint.mk "R1XXITOT" ">=" (Value.num 10), Constraint.mk "c" "=" (Value.str "on")]).1 =
      (gen_scan_join_statements
        [Constraint.mk "b" ">=" (Value.num 7), Constraint.mk "d" "=" (Value.str "off")]).1) :=
  ⟨by decide,
   gen_scan_join_statements_correct
     [Constraint.mk "R1XXITOT" ">=" (Value.num 10), Constraint.mk "c" "=" (Value.str "on")]
     [Constraint.mk "b" ">=" (Value.num 7), Constraint.mk "d" "=" (Value.str "off")]
     (by decide)
     (by refine List.Forall₂.cons ?_ (List.Forall₂.cons ?_ List.Forall₂.nil) <;> exact ⟨rfl, rfl⟩)⟩

theorem runStmts_error (fail : Nat → Option PyErr) (stmts : List Stmt) :
    ∀ (i : Nat) (c : MConn) (e : PyErr), runStmts fail i stmts c = .error e →
      ∃ k, k < stmts.length ∧ fail (i + k) = some e ∧ ∀ j, j < k → fail (i + j) = none := by
  induction stmts with
  | nil =>
    intro i c e h
    simp [runStmts] at h
  | cons st rest ih =>
    intro i c e h
    cases hf : fail i with
    | some e2 =>
      simp only [runStmts, hf] at h
      have he : e2 = e := Except.error.inj h
      subst he
      exact ⟨0, Nat.succ_pos _, by simpa using hf, fun j hj => absurd hj (Nat.not_lt_zero j)⟩
    | none =>
      simp only [runStmts, hf] at h
      obtain ⟨k, hk, hke, hkn⟩ := ih (i + 1) _ e h
      refine ⟨k + 1, Nat.succ_lt_succ hk, ?_, ?_⟩
      · rw [show i + (k + 1) = (i + 1) + k by omega]
        exact hke
      · intro j hj
        cases j with
        | zero => simpa using hf
        | succ j2 =>
          rw [show i + (j2 + 1) = (i + 1) + j2 by omega]
          exact hkn j2 (by omega)

/-- C1: whenever any statement of the transactional write raises an error,
`insert_data` re-raises exactly the error that the failing statement raised
(the first failure in statement order) and the connection is rolled back:
the committed rows — the only rows a concurrent reader can observe — are
unchanged and no statement of the write remains pending, so no partial
scan, waveform or metadata row is ever committed. -/
theorem insert_data_rolls_back (fail : Nat → Option PyErr) (off : Int) (s : Scan)
    (conn : MConn) (e : PyErr)
    (h : (Scan.insert_data fail off s conn).1 = .error e) :
    (Scan.insert_data fail off s conn).2.committed = conn.committed ∧
    (Scan.insert_data fail off s conn).2.pending = [] ∧
    ∃ i, i < (insert_steps off s).length ∧ fail i = some e ∧
      ∀ j, j < i → fail j = none := by
  rcases hr : runStmts fail 0 (insert_steps off s) conn with e2 | c
  · have he : e2 = e := by
      simp only [Scan.insert_data, hr] at h
      exact (Except.error.inj h)
    subst he
    obtain ⟨k, hk, hke, hkn⟩ := runStmts_error fail (insert_steps off s) 0 conn e2 hr
    have hres : Scan.insert_data fail off s conn = (.error e2, conn.rollback) := by
      simp only [Scan.insert_data, hr]
    rw [hres]
    exact ⟨rfl, rfl, k, hk, by simpa using hke, fun j hj => by simpa using hkn j hj⟩
  · simp only [Scan.insert_data, hr] at h
    cases h

/-- Witness for C1: a connection failure at the very first statement. -/
theorem insert_data_rolls_back_witness :
    (Scan.insert_data (fun _ => some (.runtimeError "connection lost")) 0
        ⟨⟨0, none⟩, [], [], [], [], [], []⟩ ⟨[], []⟩).1 =
      .error (.runtimeError "connection lost") ∧
    ((Scan.insert_data (fun _ => some (.runtimeError "connection lost")) 0
        ⟨⟨0, none⟩, [], [], [], [], [], []⟩ ⟨[], []⟩).2.committed =
      MConn.committed ⟨[], []⟩ ∧
    (Scan.insert_data (fun _ => some (.runtimeError "connection lost")) 0
        ⟨⟨0, none⟩, [], [], [], [], [], []⟩ ⟨[], []⟩).2.pending = [] ∧
    ∃ i, i < (insert_steps 0 ⟨⟨0, none⟩, [], [], [], [], [], []⟩).length ∧
      (fun _ => some (PyErr.runtimeError "connection lost")) i =
        some (PyErr.runtimeError "connection lost") ∧
      ∀ j, j < i → (fun _ => some (PyErr.runtimeError "connection lost")) j = none) :=
  ⟨by decide,
   insert_data_rolls_back (fun _ => some (.runtimeError "connection lost")) 0
     ⟨⟨0, none⟩, [], [], [], [], [], []⟩ ⟨[], []⟩ (.runtimeError "connection lost") (by decide)⟩

theorem dictGet_append_of_not_mem {κ α : Type} [DecidableEq κ] (d : List (κ × α)) (k : κ)
    (v : α) (h : ∀ q ∈ d, q.1 ≠ k) : dictGet k (d ++ [(k, v)]) = some v := by
  induction d with
  | nil => simp [dictGet]
  | cons p d ih =>
    have hp : p.1 ≠ k := h p (List.mem_cons_self p d)
    simp only [List.cons_append, dictGet, if_neg hp]
    exact ih (fun q hq => h q (List.mem_cons_of_mem p hq))

theorem dictGet_map_replace {κ α : Type} [DecidableEq κ] (d : List (κ × α)) (k : κ) (v : α) :
    dictGet k (d.map (fun p => if p.1 = k then (k, v) else p)) =
      if d.any (fun p => p.1 = k) then some v else none := by
  induction d with
  | nil => simp [dictGet]
  | cons p d ih =>
    by_cases hp : p.1 = k
    · simp [dictGet, hp]
    · simp only [List.map_cons, if_neg hp, dictGet, List.any_cons]
      rw [ih]
      by_cases hd : (d.any fun p => decide (p.1 = k)) = true <;> simp [hd, hp]

theorem dictGet_dictInsert_self {κ α : Type} [DecidableEq κ] (d : List (κ × α)) (k : κ) (v : α) :
    dictGet k (dictInsert d k v) = some v := by
  unfold dictInsert
  by_cases h : d.any (fun p => p.1 = k) = true
  · rw [if_pos h, dictGet_map_replace, if_pos h]
  · rw [if_neg h]
    refine dictGet_append_of_not_mem d k v ?_
    intro q hq hqe
    exact h (List.any_eq_true.mpr ⟨q, hq, by simp [hqe]⟩)

theorem dictGet_map_replace_ne {κ α : Type} [DecidableEq κ] (d : List (κ × α)) (k k2 : κ)
    (v : α) (h : k2 ≠ k) :
    dictGet k2 (d.map (fun p => if p.1 = k then (k, v) else p)) = dictGet k2 d := by
  induction d with
  | nil => rfl
  | cons p d ih =>
    by_cases hp : p.1 = k
    · simp only [List.map_cons, if_pos hp, dictGet]
      rw [if_neg (fun hh => h hh.symm), if_neg (fun hh => h (hp ▸ hh).symm)]
      exact ih
    · simp only [List.map_cons, if_neg hp, dictGet]
      by_cases hpk2 : p.1 = k2
      · rw [if_pos hpk2, if_pos hpk2]
      · rw [if_neg hpk2, if_neg hpk2]
        exact ih

theorem dictGet_append_ne {κ α : Type} [DecidableEq κ] (d : List (κ × α)) (k k2 : κ) (v : α)
    (h : k2 ≠ k) : dictGet k2 (d ++ [(k, v)]) = dictGet k2 d := by
  induction d with
  | nil => simp [dictGet, Ne.symm h]
  | cons p d ih =>
    simp only [List.cons_append, dictGet]
    by_cases hpk2 : p.1 = k2
    · rw [if_pos hpk2, if_pos hpk2]
    · rw [if_neg hpk2, if_neg hpk2]
      exact ih

theorem dictGet_dictInsert_ne {κ α : Type} [DecidableEq κ] (d : List (κ × α)) (k k2 : κ)
    (v : α) (h : k2 ≠ k) : dictGet k2 (dictInsert d k v) = dictGet k2 d := by
  unfold dictInsert
  by_cases hany : d.any (fun p => p.1 = k) = true
  · rw [if_pos hany]
    exact dictGet_map_replace_ne d k k2 v h
  · rw [if_neg hany]
    exact dictGet_append_ne d k k2 v h

theorem mem_dictInsert {κ α : Type} [DecidableEq κ] (d : List (κ × α)) (k : κ) (v : α)
    (q : κ × α) (h : q ∈ dictInsert d k v) : q = (k, v) ∨ q ∈ d := by
  unfold dictInsert at h
  by_cases hany : d.any (fun p => p.1 = k) = true
  · rw [if_pos hany] at h
    obtain ⟨p, hp, hpe⟩ := List.mem_map.mp h
    by_cases hpk : p.1 = k
    · left
      rw [← hpe]
      simp [hpk]
    · right
      rw [← hpe]
      simpa [hpk] using hp
  · rw [if_neg hany] at h
    rcases List.mem_append.mp h with h | h
    · right; exact h
    · left; simpa using h

theorem dictInsert_keys_mem {κ α : Type} [DecidableEq κ] (d : List (κ × α)) (k : κ) (v : α)
    (h : d.any (fun p => p.1 = k) = true) :
    (dictInsert d k v).map Prod.fst = d.map Prod.fst := by
  unfold dictInsert
  rw [if_pos h, List.map_map]
  refine List.map_congr_left ?_
  intro p hp
  by_cases hpk : p.1 = k <;> simp [hpk]

theorem dictInsert_keys_not_mem {κ α : Type} [DecidableEq κ] (d : List (κ × α)) (k : κ) (v : α)
    (h : d.any (fun p => p.1 = k) = false) :
    (dictInsert d k v).map Prod.fst = d.map Prod.fst ++ [k] := by
  unfold dictInsert
  rw [if_neg (by simp [h])]
  simp

theorem dictHas_iff {κ α : Type} [DecidableEq κ] (d : List (κ × α)) (k : κ) :
    d.any (fun p => p.1 = k) = true ↔ k ∈ d.map Prod.fst := by
  simp only [List.any_eq_true, List.mem_map, decide_eq_true_eq]

theorem applyRow_keys (acc : List (Nat × List (String × FieldVal))) (row : MetaRow) :
    (applyRow acc row).map Prod.fst =
      if row.sid ∈ acc.map Prod.fst then acc.map Prod.fst
      else acc.map Prod.fst ++ [row.sid] := by
  simp only [applyRow]
  by_cases h : acc.any (fun p => p.1 = row.sid) = true
  · rw [dictInsert_keys_mem _ _ _ h, if_pos ((dictHas_iff acc row.sid).mp h)]
  · rw [dictInsert_keys_not_mem _ _ _ (Bool.eq_false_iff.mpr h),
      if_neg (fun hh => h ((dictHas_iff acc row.sid).mpr hh))]

theorem firstSeenFrom_congr (l : List Nat) :
    ∀ s1 s2, (∀ y, y ∈ s1 ↔ y ∈ s2) → firstSeenFrom s1 l = firstSeenFrom s2 l := by
  induction l with
  | nil => intro s1 s2 hs; rfl
  | cons x xs ih =>
    intro s1 s2 hs
    simp only [firstSeenFrom]
    by_cases hx : x ∈ s1
    · rw [if_pos hx, if_pos ((hs x).mp hx)]
      exact ih s1 s2 hs
    · rw [if_neg hx, if_neg (fun hh => hx ((hs x).mpr hh))]
      rw [ih (x :: s1) (x :: s2) (fun y => by simp [hs y])]

theorem foldl_applyRow_keys (rows : List MetaRow) :
    ∀ acc, (rows.foldl applyRow acc).map Prod.fst =
      acc.map Prod.fst ++ firstSeenFrom (acc.map Prod.fst) (rows.map MetaRow.sid) := by
  induction rows with
  | nil =>
    intro acc
    simp [firstSeenFrom]
  | cons row rest ih =>
    intro acc
    simp only [List.foldl_cons, List.map_cons, firstSeenFrom]
    by_cases h : row.sid ∈ acc.map Prod.fst
    · rw [if_pos h, ih (applyRow acc row), applyRow_keys, if_pos h]
    · rw [if_neg h, ih (applyRow acc row), applyRow_keys, if_neg h]
      rw [firstSeenFrom_congr (rest.map MetaRow.sid) (acc.map Prod.fst ++ [row.sid])
        (row.sid :: acc.map Prod.fst) (fun y => by simp [or_comm])]
      simp

theorem recStep (acc : List (Nat × List (String × FieldVal))) (row : MetaRow)
    (sid : Nat) (k : String) (hk1 : k ≠ "sid") (hk2 : k ≠ "scan_start_utc") :
    (dictGet sid (applyRow acc row)).bind (fun d => dictGet k d) =
      if row.sid = sid ∧ row.key = k then some row.val
      else (dictGet sid acc).bind (fun d => dictGet k d) := by
  simp only [applyRow]
  by_cases hsid : row.sid = sid
  · subst hsid
    rw [dictGet_dictInsert_self]
    simp only [Option.some_bind]
    by_cases hkey : row.key = k
    · subst hkey
      rw [dictGet_dictInsert_self]
      simp
    · rw [if_neg (fun hh => hkey hh.2)]
      rw [dictGet_dictInsert_ne _ _ _ _ (fun hh => hkey hh.symm)]
      rw [dictGet_dictInsert_ne _ _ _ _ hk2, dictGet_dictInsert_ne _ _ _ _ hk1]
      cases hd : dictGet row.sid acc <;> simp [hd, dictGet]
  · rw [dictGet_dictInsert_ne _ _ _ _ (fun hh => hsid hh.symm)]
    rw [if_neg (fun hh => hsid hh.1)]

theorem recFold (rows : List MetaRow) :
    ∀ (acc : List (Nat × List (String × FieldVal))) (sid : Nat) (k : String),
      k ≠ "sid" → k ≠ "scan_start_utc" →
      (dictGet sid (rows.foldl applyRow acc)).bind (fun d => dictGet k d) =
        rows.foldl (fun o r => if r.sid = sid ∧ r.key = k then some r.val else o)
          ((dictGet sid acc).bind (fun d => dictGet k d)) := by
  induction rows with
  | nil =>
    intro acc sid k hk1 hk2
    rfl
  | cons row rest ih =>
    intro acc sid k hk1 hk2
    simp only [List.foldl_cons]
    rw [ih (applyRow acc row) sid k hk1 hk2, recStep acc row sid k hk1 hk2]

theorem sPrefix_ne_sid (name : String) : ("s_" ++ name) ≠ "sid" := by
  intro h
  have h2 := congrArg String.data h
  rw [String.data_append] at h2
  have e1 : "s_".data = ['s', '_'] := rfl
  have e2 : "sid".data = ['s', 'i', 'd'] := rfl
  rw [e1, e2] at h2
  simp at h2

theorem fPrefix_ne_sid (name : String) : ("f_" ++ name) ≠ "sid" := by
  intro h
  have h2 := congrArg String.data h
  rw [String.data_append] at h2
  have e1 : "f_".data = ['f', '_'] := rfl
  have e2 : "sid".data = ['s', 'i', 'd'] := rfl
  rw [e1, e2] at h2
  simp at h2

theorem sPrefix_ne_start (name : String) : ("s_" ++ name) ≠ "scan_start_utc" := by
  intro h
  have h2 := congrArg String.data h
  rw [String.data_append] at h2
  have e1 : "s_".data = ['s', '_'] := rfl
  have e2 : "scan_start_utc".data =
    ['s', 'c', 'a', 'n', '_', 's', 't', 'a', 'r', 't', '_', 'u', 't', 'c'] := rfl
  rw [e1, e2] at h2
  simp at h2

theorem fPrefix_ne_start (name : String) : ("f_" ++ name) ≠ "scan_start_utc" := by
  intro h
  have h2 := congrArg String.data h
  rw [String.data_append] at h2
  have e1 : "f_".data = ['f', '_'] := rfl
  have e2 : "scan_start_utc".data =
    ['s', 'c', 'a', 'n', '_', 's', 't', 'a', 'r', 't', '_', 'u', 't', 'c'] := rfl
  rw [e1, e2] at h2
  simp at h2

theorem metaRow_key_ne_sid (r : MetaRow) : r.key ≠ "sid" := by
  cases r with
  | srow sid t n v => exact sPrefix_ne_sid n
  | frow sid t n v => exact fPrefix_ne_sid n

theorem metaRow_key_ne_start (r : MetaRow) : r.key ≠ "scan_start_utc" := by
  cases r with
  | srow sid t n v => exact sPrefix_ne_start n
  | frow sid t n v => exact fPrefix_ne_start n

theorem fold_sid_field (rows : List MetaRow) :
    ∀ acc, (∀ p ∈ acc, dictGet "sid" p.2 = some (.nat p.1)) →
      ∀ p ∈ rows.foldl applyRow acc, dictGet "sid" p.2 = some (.nat p.1) := by
  induction rows with
  | nil =>
    intro acc h
    simpa using h
  | cons row rest ih =>
    intro acc h
    refine ih (applyRow acc row) ?_
    intro p hp
    rcases mem_dictInsert _ _ _ p (by simpa only [applyRow] using hp) with rfl | hmem
    · show dictGet "sid" (dictInsert _ row.key row.val) = _
      rw [dictGet_dictInsert_ne _ _ _ _ (Ne.symm (metaRow_key_ne_sid row))]
      rw [dictGet_dictInsert_ne _ _ _ _ (by decide)]
      rw [dictGet_dictInsert_self]
    · exact h p hmem

/-- C8: the row folding of `query_scan_rows` is a pure order-preserving
reduction — an empty row sequence folds to an empty record list (not an
error), the folded records carry the owner ids in first-seen order (the
dictionary key order equals `firstSeenFrom [] ...` of the row owner ids,
and every record's `sid` field equals its key), and when several rows carry
the same (owner, folded key) pair, the record holds the value of the last
such row. -/
theorem foldScanRows_spec (rows : List MetaRow) (sid : Nat) (k : String)
    (hk1 : k ≠ "sid") (hk2 : k ≠ "scan_start_utc") :
    foldScanRows [] = [] ∧
    (rows.foldl applyRow []).map Prod.fst = firstSeenFrom [] (rows.map MetaRow.sid) ∧
    (∀ p ∈ rows.foldl applyRow [], dictGet "sid" p.2 = some (.nat p.1)) ∧
    recLookup rows sid k = lastValue rows sid k := by
  refine ⟨rfl, ?_, ?_, ?_⟩
  · simpa using foldl_applyRow_keys rows []
  · exact fold_sid_field rows [] (by simp)
  · unfold recLookup lastValue
    rw [recFold rows [] sid k hk1 hk2]
    rfl

/-- Witness for C8 at a three-row input with a duplicated (owner, name)
pair. -/
theorem foldScanRows_spec_witness :
    foldScanRows [] = [] ∧
    (([MetaRow.frow 1 0 "a" 2, MetaRow.srow 1 0 "c" "on",
       MetaRow.frow 1 0 "a" 5].foldl applyRow []).map Prod.fst =
      firstSeenFrom []
        ([MetaRow.frow 1 0 "a" 2, MetaRow.srow 1 0 "c" "on",
          MetaRow.frow 1 0 "a" 5].map MetaRow.sid)) ∧
    (∀ p ∈ [MetaRow.frow 1 0 "a" 2, MetaRow.srow 1 0 "c" "on",
        MetaRow.frow 1 0 "a" 5].foldl applyRow [],
      dictGet "sid" p.2 = some (.nat p.1)) ∧
    recLookup [MetaRow.frow 1 0 "a" 2, MetaRow.srow 1 0 "c" "on",
        MetaRow.frow 1 0 "a" 5] 1 "f_a" =
      lastValue [MetaRow.frow 1 0 "a" 2, MetaRow.srow 1 0 "c" "on",
        MetaRow.frow 1 0 "a" 5] 1 "f_a" :=
  foldScanRows_spec
    [MetaRow.frow 1 0 "a" 2, MetaRow.srow 1 0 "c" "on", MetaRow.frow 1 0 "a" 5]
    1 "f_a" (by decide) (by decide)

theorem mem_firstSeenFrom (l : List Nat) :
    ∀ seen x, x ∈ firstSeenFrom seen l → x ∈ l := by
  induction l with
  | nil =>
    intro seen x h
    simp [firstSeenFrom] at h
  | cons a xs ih =>
    intro seen x h
    simp only [firstSeenFrom] at h
    by_cases ha : a ∈ seen
    · rw [if_pos ha] at h
      exact List.mem_cons_of_mem a (ih seen x h)
    · rw [if_neg ha] at h
      rcases List.mem_cons.mp h with rfl | h
      · exact List.mem_cons_self _ _
      · exact List.mem_cons_of_mem a (ih (a :: seen) x h)

/-- C10: a stored scan with no row in either scan metadata table yields no
folded record, even when it passes the time-window and constraint filters
(it is in the `scan` table and satisfies `pred`): both read queries
inner-join the filtered scans against a metadata table, so a metadata-less
scan produces no long-format row and hence no record. -/
theorem query_scan_rows_drops_metadataless (db : StoreDB) (pred : Nat × Int → Bool)
    (sid : Nat) (t : Int)
    (hscan : (sid, t) ∈ db.scan) (hpred : pred (sid, t) = true)
    (hs : ∀ r ∈ db.scan_sdata, r.1 ≠ sid) (hf : ∀ r ∈ db.scan_fdata, r.1 ≠ sid) :
    ∀ d ∈ query_scan_rows db pred, dictGet "sid" d ≠ some (.nat sid) := by
  intro d hd
  have hrowsid : ∀ r ∈ sdataJoin db pred ++ fdataJoin db pred, MetaRow.sid r ≠ sid := by
    intro r hr
    rcases List.mem_append.mp hr with h | h
    · obtain ⟨q, hq, hmap⟩ := List.mem_flatMap.mp h
      obtain ⟨u, hu, rfl⟩ := List.mem_map.mp hmap
      simpa [MetaRow.sid] using hs q hq
    · obtain ⟨q, hq, hmap⟩ := List.mem_flatMap.mp h
      obtain ⟨u, hu, rfl⟩ := List.mem_map.mp hmap
      simpa [MetaRow.sid] using hf q hq
  obtain ⟨p, hp, rfl⟩ := List.mem_map.mp hd
  have hsidfield := fold_sid_field (sdataJoin db pred ++ fdataJoin db pred) [] (by simp) p hp
  intro hcontra
  rw [hsidfield] at hcontra
  have hp1 : p.1 = sid := FieldVal.nat.inj (Option.some.inj hcontra)
  have hkeys : p.1 ∈ ((sdataJoin db pred ++ fdataJoin db pred).foldl applyRow []).map Prod.fst :=
    List.mem_map_of_mem Prod.fst hp
  rw [foldl_applyRow_keys _ []] at hkeys
  simp only [List.map_nil, List.nil_append] at hkeys
  obtain ⟨r, hr, hre⟩ := List.mem_map.mp
    (mem_firstSeenFrom ((sdataJoin db pred ++ fdataJoin db pred).map MetaRow.sid) [] p.1 hkeys)
  exact hrowsid r hr (hre.trans hp1)

/-- Witness for C10: scan 1 has no metadata rows while scan 2 has one, so
the only folded record is scan 2's and it does not carry sid 1. -/
theorem query_scan_rows_drops_metadataless_witness :
    dictGet "sid"
        [("sid", FieldVal.nat 2), ("scan_start_utc", FieldVal.time 0),
         ("s_c", FieldVal.str "on")] ≠ some (FieldVal.nat 1) :=
  query_scan_rows_drops_metadataless ⟨[(1, 0), (2, 0)], [(2, "c", "on")], []⟩
    (fun _ => true) 1 0 (by decide) (by decide) (by decide) (by decide)
    [("sid", FieldVal.nat 2), ("scan_start_utc", FieldVal.time 0),
     ("s_c", FieldVal.str "on")] (by decide)

theorem map_numVal_map_num (l : List ℚ) : (l.map Value.num).map Value.numVal = l := by
  induction l with
  | nil => rfl
  | cons a t iht => simp only [List.map_cons, Value.numVal, iht]

theorem npArgmax_spec (l : List ℚ) : l ≠ [] →
    npArgmax l < l.length ∧ ∀ j, j < l.length → l.getD j 0 ≤ l.getD (npArgmax l) 0 := by
  induction l with
  | nil => intro h; exact absurd rfl h
  | cons x t ih =>
    intro _
    cases t with
    | nil =>
      refine ⟨by simp [npArgmax], ?_⟩
      intro j hj
      simp only [List.length_singleton] at hj
      have hj0 : j = 0 := by omega
      subst hj0
      simp [npArgmax]
    | cons y xs =>
      obtain ⟨ih1, ih2⟩ := ih (by simp)
      by_cases hgt : (y :: xs).getD (npArgmax (y :: xs)) 0 > x
      · have hdef : npArgmax (x :: y :: xs) = npArgmax (y :: xs) + 1 := by
          simp only [npArgmax]
          rw [if_pos hgt]
        constructor
        · rw [hdef]
          simpa [List.length_cons] using Nat.succ_lt_succ ih1
        · intro j hj
          rw [hdef]
          cases j with
          | zero => simpa using le_of_lt hgt
          | succ j2 =>
            have hle := ih2 j2 (by simpa using Nat.lt_of_succ_lt_succ hj)
            simpa using hle
      · have hdef : npArgmax (x :: y :: xs) = 0 := by
          simp only [npArgmax]
          rw [if_neg hgt]
        constructor
        · rw [hdef]
          simp
        · intro j hj
          rw [hdef]
          cases j with
          | zero => simp
          | succ j2 =>
            have h1 := ih2 j2 (by simpa using Nat.lt_of_succ_lt_succ hj)
            have h2 : (y :: xs).getD (npArgmax (y :: xs)) 0 ≤ x := not_lt.mp hgt
            simpa using le_trans h1 h2

/-- C9: on a valid all-numeric 8192-sample input, the reported
`dominant_frequency` scalar equals the frequency-axis entry at the argmax
of the power estimate; that argmax index is within the 4097 one-sided bins
and carries the maximal estimated power; and the frequency axis has
exactly 4097 entries with bin `i` equal to `i * sampling_rate / 8192`. -/
theorem analyze_signal_dominant_frequency (npSqrt : ℚ → ℚ) (pxx : List ℚ → ℚ → List ℚ)
    (xs : List ℚ) (fs : ℚ) (hlen : xs.length = 8192) (hp : (pxx xs fs).length = 4097) :
    ∃ scalars arrays,
      analyze_signal npSqrt pxx (PyObj.seq (xs.map Value.num)) fs = .ok (scalars, arrays) ∧
      dictGet "dominant_frequency" scalars =
        some ((periodogramFreqs 8192 fs).getD (npArgmax (pxx xs fs)) 0) ∧
      dictGet "power_spectrum" arrays = some (pxx xs fs) ∧
      dictGet "frequencies" arrays = some (periodogramFreqs 8192 fs) ∧
      (periodogramFreqs 8192 fs).length = 4097 ∧
      (∀ i, i < 4097 → (periodogramFreqs 8192 fs).getD i 0 = (i : ℚ) * fs / 8192) ∧
      npArgmax (pxx xs fs) < 4097 ∧
      (∀ j, j < 4097 →
        (pxx xs fs).getD j 0 ≤ (pxx xs fs).getD (npArgmax (pxx xs fs)) 0) := by
  have hxs : (xs.map Value.num).map Value.numVal = xs := map_numVal_map_num xs
  have hall : (xs.map Value.num).all Value.isNum = true := by
    simp [List.all_map, Value.isNum, Function.comp]
  have hlen2 : (xs.map Value.num).length = 8192 := by simpa using hlen
  have hne : pxx xs fs ≠ [] := by
    intro hh
    rw [hh] at hp
    simp at hp
  obtain ⟨ha1, ha2⟩ := npArgmax_spec (pxx xs fs) hne
  rw [hp] at ha1 ha2
  have heq : analyze_signal npSqrt pxx (PyObj.seq (xs.map Value.num)) fs = .ok
      ([("minimum", listMin xs), ("maximum", listMax xs),
        ("peak_to_peak", listMax xs - listMin xs),
        ("mean", npMean xs), ("median", npMedian xs),
        ("standard_deviation", npSqrt (npMean (xs.map (fun x => (x - npMean xs) ^ 2)))),
        ("rms", npSqrt (npMean (xs.map (fun x => x ^ 2)))),
        ("25th_quartile", npPercentile xs 25), ("75th_quartile", npPercentile xs 75),
        ("dominant_frequency", (periodogramFreqs 8192 fs).getD (npArgmax (pxx xs fs)) 0)],
       [("power_spectrum", pxx xs fs), ("frequencies", periodogramFreqs 8192 fs)]) := by
    simp [analyze_signal, hall, hlen2, hxs]
  have hflen : (periodogramFreqs 8192 fs).length = 4097 := by
    rw [periodogramFreqs, List.length_map, List.length_range]
  have hfreq : ∀ i, i < 4097 → (periodogramFreqs 8192 fs).getD i 0 = (i : ℚ) * fs / 8192 := by
    intro i hi
    have hi2 : i < (List.range (8192 / 2 + 1)).length := by
      rw [List.length_range]
      omega
    rw [periodogramFreqs, List.getD_eq_getElem?_getD, List.getElem?_map,
      List.getElem?_eq_getElem hi2, List.getElem_range]
    simp
  refine ⟨_, _, heq, ?_, ?_, ?_, hflen, hfreq, ha1, ha2⟩
  · simp [dictGet]
  · simp [dictGet]
  · simp [dictGet]

/-- Witness for C9 at a constant 8192-sample input and a constant power
oracle. -/
theorem analyze_signal_dominant_frequency_witness :
    ∃ scalars arrays,
      analyze_signal id (fun _ _ => List.replicate 4097 (0 : ℚ))
        (PyObj.seq ((List.replicate 8192 (0 : ℚ)).map Value.num)) 5000 =
        .ok (scalars, arrays) ∧
      dictGet "dominant_frequency" scalars =
        some ((periodogramFreqs 8192 5000).getD (npArgmax (List.replicate 4097 (0 : ℚ))) 0) ∧
      dictGet "power_spectrum" arrays = some (List.replicate 4097 (0 : ℚ)) ∧
      dictGet "frequencies" arrays = some (periodogramFreqs 8192 5000) ∧
      (periodogramFreqs 8192 5000).length = 4097 ∧
      (∀ i, i < 4097 → (periodogramFreqs 8192 5000).getD i 0 = (i : ℚ) * 5000 / 8192) ∧
      npArgmax (List.replicate 4097 (0 : ℚ)) < 4097 ∧
      (∀ j, j < 4097 →
        (List.replicate 4097 (0 : ℚ)).getD j 0 ≤
          (List.replicate 4097 (0 : ℚ)).getD (npArgmax (List.replicate 4097 (0 : ℚ))) 0) :=
  analyze_signal_dominant_frequency id (fun _ _ => List.replicate 4097 (0 : ℚ))
    (List.replicate 8192 (0 : ℚ)) 5000 (List.length_replicate 8192 0)
    (List.length_replicate 4097 0)

end RFScope
